import Mathlib

/-!
Verification of the `imposter` social-deduction game engine.

The Go sources are embedded shallowly:
* Go string-typed enums (`Role`, `Phase`, `ConnectionStatus`) are `String`s,
  with the same constant values; an unassigned role is `""` as in Go.
* `map[string]*Player` is an association list `List (String × Player)` whose
  order stands for Go's (unspecified) map iteration order; mutation through
  the pointer becomes functional update of the list entry.
* `time.Time` fields (`JoinedAt`, `StartedAt`, `EndedAt`, `CreatedAt`) carry
  no game logic and are omitted; durations in `GameSettings` are kept as
  plain `Nat` second counts.
* Randomness (`math/rand`, `crypto/rand`) is an oracle passed explicitly:
  `rand.Shuffle`'s Fisher-Yates loop consumes a stream of draws, `rand.Intn n`
  becomes a parameter reduced modulo `n` (its contractual range), and
  `crypto/rand.Read` becomes an explicit byte list.
* Methods that mutate their receiver return the updated value next to the
  Go return values; an early `return err` yields the state unchanged up to
  that point, exactly as in the source.
-/

namespace Imposter

/-! ### Fisher-Yates shuffle (`rand.Shuffle` with the source's swap body) -/

/-- One swap `order[i], order[j] = order[j], order[i]` of the `rand.Shuffle`
callback in `NewRound`; out-of-range indices leave the list unchanged (the
shuffle only ever produces in-range indices). -/
def listSwap (l : List α) (i j : Nat) : List α :=
  if h : i < l.length ∧ j < l.length then
    (l.set i (l.get ⟨j, h.2⟩)).set j (l.get ⟨i, h.1⟩)
  else l

/-- `rand.Shuffle` iterates `i` from `n-1` down to `1`, drawing `j := Intn (i+1)`
and swapping positions `i` and `j`.  The draws come from the oracle stream
`js`; each draw is reduced modulo `i+1`, the range `rand.Intn` guarantees. -/
def shuffleGo : List String → Nat → List Nat → List String
  | l, 0, _ => l
  | l, i+1, js => shuffleGo (listSwap l (i+1) ((js.headD 0) % (i+2))) i js.tail

/-- The slice shuffle in `NewRound`: `rand.Shuffle(len(order), swap)`. -/
def shuffle (l : List String) (js : List Nat) : List String :=
  shuffleGo l (l.length - 1) js

theorem count_set_aux [BEq α] (a b : α) (l : List α) (n : Nat) (h : n < l.length) :
    (l.set n b).count a + (if l[n] == a then 1 else 0)
      = l.count a + (if b == a then 1 else 0) := by
  rw [List.set_eq_take_cons_drop b h]
  conv_rhs => rw [← List.take_append_drop n l, ← List.getElem_cons_drop l n h]
  simp only [List.count_append, List.count_cons]
  omega

theorem set_getElem_self (l : List α) (i : Nat) (h : i < l.length) :
    l.set i l[i] = l := by
  induction l generalizing i with
  | nil => simp at h
  | cons x xs ih =>
      cases i with
      | zero => simp
      | succ n =>
          simp only [List.getElem_cons_succ, List.set_cons_succ, List.cons.injEq, true_and]
          exact ih n (by simpa using h)

theorem listSwap_perm (l : List String) (i j : Nat) : List.Perm (listSwap l i j) l := by
  unfold listSwap
  split
  · rename_i h
    obtain ⟨hi, hj⟩ := h
    simp only [List.get_eq_getElem]
    by_cases hij : i = j
    · subst hij
      rw [List.set_set, set_getElem_self l i hi]
    · rw [List.perm_iff_count]
      intro a
      have hj2 : j < (l.set i l[j]).length := by simp; omega
      have h1 := count_set_aux a l[i] (l.set i l[j]) j hj2
      have h2 := count_set_aux a l[j] l i hi
      have hmid : (l.set i l[j])[j] = l[j] := List.getElem_set_ne hij _
      rw [hmid] at h1
      omega
  · exact List.Perm.refl l

theorem shuffleGo_perm (i : Nat) : ∀ (l : List String) (js : List Nat),
    List.Perm (shuffleGo l i js) l := by
  induction i with
  | zero => intro l js; exact List.Perm.refl l
  | succ n ih =>
      intro l js
      exact (ih _ js.tail).trans (listSwap_perm l (n+1) ((js.headD 0) % (n+2)))

/-- The shuffled order in `NewRound` is a permutation of the input ids. -/
theorem shuffle_perm (l : List String) (js : List Nat) :
    List.Perm (shuffle l js) l :=
  shuffleGo_perm (l.length - 1) l js

/-! ### Enums (Go string-typed constants) -/

def RoleImposter : String := "IMPOSTER"

def RoleVilek : String := "VILEK"

def PhaseLobby : String := "LOBBY"

def PhaseRoleAssignment : String := "ROLE_ASSIGNMENT"

def PhaseSubmission : String := "SUBMISSION"

def PhaseVoting : String := "VOTING"

def PhaseResults : String := "RESULTS"

def StatusConnected : String := "CONNECTED"

def StatusDisconnected : String := "DISCONNECTED"

/-- The domain error values of `errors.go`. -/
inductive GameError where
  | gameNotFound
  | gameFull
  | gameAlreadyStarted
  | notEnoughPlayers
  | notYourTurn
  | alreadySubmitted
  | alreadyVoted
  | invalidPhase
  | playerNotFound
  | notHost
  | cannotVoteSelf
  | invalidTransition
  | emptyWord
  | invalidTargetID
deriving DecidableEq, Repr

/-! ### Phase transition table (`phase.go`) -/

/-- The `validTransitions` map literal in `Phase.CanTransitionTo`; an unknown
phase has no entry (`ok == false` branch). -/
def validTransitions (p : String) : List String :=
  if p = PhaseLobby then [PhaseRoleAssignment]
  else if p = PhaseRoleAssignment then [PhaseSubmission]
  else if p = PhaseSubmission then [PhaseVoting]
  else if p = PhaseVoting then [PhaseResults]
  else if p = PhaseResults then [PhaseRoleAssignment, PhaseLobby]
  else []

/-- `Phase.CanTransitionTo`: the target is searched in the allowed list. -/
def canTransitionTo (p target : String) : Bool :=
  (validTransitions p).contains target

/-! ### Player (`player.go`) -/

structure Player where
  id : String
  nickname : String
  role : String
  hasVoted : Bool
  hasSubmitted : Bool
  status : String
deriving DecidableEq, Repr

/-- `NewPlayer` (`JoinedAt` omitted, see the header note). -/
def NewPlayer (id nickname : String) : Player :=
  { id := id, nickname := nickname, role := "", hasVoted := false,
    hasSubmitted := false, status := StatusConnected }

/-- `Player.ResetForNewRound`. -/
def Player.resetForNewRound (p : Player) : Player :=
  { p with role := "", hasVoted := false, hasSubmitted := false }

/-- `PlayerInfo`, the role-free view sent to other players. -/
structure PlayerInfo where
  id : String
  nickname : String
  hasVoted : Bool
  hasSubmitted : Bool
  status : String
deriving DecidableEq, Repr

/-- `Player.ToInfo`: every field except the role. -/
def Player.toInfo (p : Player) : PlayerInfo :=
  { id := p.id, nickname := p.nickname, hasVoted := p.hasVoted,
    hasSubmitted := p.hasSubmitted, status := p.status }

/-! ### Submissions, votes, results (`submission.go`, `vote.go`) -/

structure Submission where
  playerId : String
  nickname : String
  word : String
  order : Nat
deriving DecidableEq, Repr

/-- `NewSubmission` (timestamp omitted). -/
def NewSubmission (playerId nickname word : String) (order : Nat) : Submission :=
  { playerId := playerId, nickname := nickname, word := word, order := order }

structure Vote where
  voterId : String
  targetId : String
deriving DecidableEq, Repr

/-- `NewVote` (timestamp omitted). -/
def NewVote (voterId targetId : String) : Vote :=
  { voterId := voterId, targetId := targetId }

structure VoteResult where
  playerId : String
  nickname : String
  voteCount : Nat
  votedBy : List String
  isImposter : Bool
deriving DecidableEq, Repr

/-! ### Round (`round.go`) -/

structure Round where
  number : Nat
  secretWord : String
  imposterID : String
  submissions : List Submission
  votes : List Vote
  currentPlayerIdx : Nat
  playerOrder : List String
  winner : String
deriving DecidableEq, Repr

/-- `NewRound`: shuffles the ids into `PlayerOrder` and picks the imposter by
`rand.Intn(len(playerIDs))`; the two random draws are the oracle arguments
`js` (shuffle stream) and `imposterIdx` (constrained to `< playerIDs.length`
by `rand.Intn`'s contract wherever a theorem needs it). -/
def NewRound (number : Nat) (secretWord : String) (playerIDs : List String)
    (js : List Nat) (imposterIdx : Nat) : Round :=
  let order := shuffle playerIDs js
  let imposterID := playerIDs.getD imposterIdx ""
  { number := number, secretWord := secretWord, imposterID := imposterID,
    submissions := [], votes := [], currentPlayerIdx := 0,
    playerOrder := order, winner := "" }

/-- `Round.GetCurrentPlayerID`. -/
def Round.getCurrentPlayerID (r : Round) : String :=
  if r.currentPlayerIdx ≥ r.playerOrder.length then ""
  else r.playerOrder.getD r.currentPlayerIdx ""

/-- `Round.IsPlayerTurn`. -/
def Round.isPlayerTurn (r : Round) (playerID : String) : Bool :=
  r.getCurrentPlayerID = playerID

/-- `Round.AddSubmission`: rejects out-of-turn callers, otherwise appends the
submission and advances the turn index. -/
def Round.addSubmission (r : Round) (playerID nickname word : String) :
    Except GameError Round :=
  if ¬ r.isPlayerTurn playerID then .error .notYourTurn
  else .ok { r with
    submissions := r.submissions ++ [NewSubmission playerID nickname word (r.submissions.length + 1)],
    currentPlayerIdx := r.currentPlayerIdx + 1 }

/-- `Round.AllSubmitted`. -/
def Round.allSubmitted (r : Round) : Bool :=
  r.currentPlayerIdx ≥ r.playerOrder.length

/-- `Round.AddVote`: rejects a voter already present in `Votes`. -/
def Round.addVote (r : Round) (voterID targetID : String) : Except GameError Round :=
  if r.votes.any (fun v => v.voterId = voterID) then .error .alreadyVoted
  else .ok { r with votes := r.votes ++ [NewVote voterID targetID] }

/-- `Round.AllVoted`. -/
def Round.allVoted (r : Round) (totalPlayers : Nat) : Bool :=
  r.votes.length ≥ totalPlayers

/-- `Round.GetVotedCount`. -/
def Round.getVotedCount (r : Round) : Nat :=
  r.votes.length

/-- `Round.HasPlayerVoted`. -/
def Round.hasPlayerVoted (r : Round) (playerID : String) : Bool :=
  r.votes.any (fun v => v.voterId = playerID)

/-- The `voteCounts` tally of `CalculateResults`: votes received by `target`. -/
def voteCount (votes : List Vote) (target : String) : Nat :=
  (votes.filter (fun v => v.targetId = target)).length

/-- The `voterNames` tally of `CalculateResults`: nicknames of the voters for
`target`, in vote order; an unknown voter contributes `""`. -/
def voterNames (votes : List Vote) (players : List (String × Player))
    (target : String) : List String :=
  (votes.filter (fun v => v.targetId = target)).map
    (fun v => match players.lookup v.voterId with
      | some p => p.nickname
      | none => "")

/-- The accumulator step of the `maxVotes` / `maxVotedPlayerID` loop in
`CalculateResults`: a candidate replaces the leader only on a strictly
greater count. -/
def accusedStep (votes : List Vote) (acc : Nat × String) (entry : String × Player) :
    Nat × String :=
  let c := voteCount votes entry.1
  if c > acc.1 then (c, entry.1) else acc

/-- `Round.CalculateResults`.  The association-list order of `players` stands
for Go's unspecified map iteration order.  Returns the Go return values and
the updated round (the Go code mutates `r.Winner` through the receiver
pointer; `r.EndedAt` is omitted). -/
def Round.calculateResults (r : Round) (players : List (String × Player)) :
    List VoteResult × String × Round :=
  let results := players.map (fun entry =>
    { playerId := entry.1, nickname := entry.2.nickname,
      voteCount := voteCount r.votes entry.1,
      votedBy := voterNames r.votes players entry.1,
      isImposter := entry.1 = r.imposterID : VoteResult })
  let maxVoted := (players.foldl (accusedStep r.votes) (0, "")).2
  let winner := if maxVoted = r.imposterID then RoleVilek else RoleImposter
  (results, winner, { r with winner := winner })

/-! ### Game (`game.go`)

`map[string]*Player` is an association list; the list order models Go's
(unspecified) map iteration order.  Pointer mutation of one player becomes a
functional update of that entry. -/

/-- `g.Players[playerID] = player`: overwrite an existing key in place,
otherwise add the binding (placed at the end; a Go map has no order). -/
def mapSet (players : List (String × Player)) (id : String) (p : Player) :
    List (String × Player) :=
  if players.any (fun e => e.1 = id) then
    players.map (fun e => if e.1 = id then ((id, p) : String × Player) else e)
  else players ++ [(id, p)]

/-- Mutation of one player through its map pointer (`player.X = v`). -/
def mapUpdate (players : List (String × Player)) (id : String)
    (f : Player → Player) : List (String × Player) :=
  players.map (fun e => if e.1 = id then (e.1, f e.2) else e)

structure GameSettings where
  minPlayers : Nat
  maxPlayers : Nat
  votingDuration : Nat
  roleRevealTime : Nat
deriving DecidableEq, Repr

/-- `DefaultGameSettings` (durations in seconds). -/
def DefaultGameSettings : GameSettings :=
  { minPlayers := 4, maxPlayers := 10, votingDuration := 20, roleRevealTime := 5 }

structure Game where
  id : String
  hostID : String
  players : List (String × Player)
  currentRound : Option Round
  roundHistory : List Round
  phase : String
  settings : GameSettings
deriving DecidableEq, Repr

/-- `NewGame` (`CreatedAt` omitted). -/
def NewGame (id : String) : Game :=
  { id := id, hostID := "", players := [], currentRound := none,
    roundHistory := [], phase := PhaseLobby, settings := DefaultGameSettings }

/-- `Game.GetPlayer`. -/
def Game.getPlayer (g : Game) (playerID : String) : Option Player :=
  g.players.lookup playerID

/-- `Game.GetPlayerIDs` (map iteration order = list order). -/
def Game.getPlayerIDs (g : Game) : List String :=
  g.players.map (fun e => e.1)

/-- `Game.AddPlayer`: phase and capacity checks, then insert; the first
player becomes host. -/
def Game.addPlayer (g : Game) (playerID nickname : String) :
    Game × Except GameError Player :=
  if g.phase ≠ PhaseLobby then (g, .error .gameAlreadyStarted)
  else if g.players.length ≥ g.settings.maxPlayers then (g, .error .gameFull)
  else
    let player := NewPlayer playerID nickname
    let g := { g with players := mapSet g.players playerID player }
    let g := if g.hostID = "" then { g with hostID := playerID } else g
    (g, .ok player)

/-- `Game.RemovePlayer`: delete, then reassign the host to the first player
in iteration order if the host left and players remain.  (When the removed
host was the last player, the `len > 0` guard skips the reassignment and
`HostID` keeps the removed id.) -/
def Game.removePlayer (g : Game) (playerID : String) : Game × Option GameError :=
  if ¬ g.players.any (fun e => e.1 = playerID) then (g, some .playerNotFound)
  else
    let players := g.players.filter (fun e => e.1 ≠ playerID)
    let g := { g with players := players }
    let g :=
      if g.hostID = playerID ∧ g.players.length > 0 then
        { g with hostID := (g.players.headD ("", NewPlayer "" "")).1 }
      else g
    (g, none)

/-- `Game.CanStart`. -/
def Game.canStart (g : Game) : Bool :=
  g.phase = PhaseLobby ∧ g.players.length ≥ g.settings.minPlayers

/-- `Game.StartRound`: phase/size checks, reset players, build the round
(randomness oracles threaded through to `NewRound`), assign roles, move to
ROLE_ASSIGNMENT. -/
def Game.startRound (g : Game) (secretWord : String) (js : List Nat)
    (imposterIdx : Nat) : Game × Option GameError :=
  if g.phase ≠ PhaseLobby ∧ g.phase ≠ PhaseResults then (g, some .invalidPhase)
  else if g.players.length < g.settings.minPlayers then (g, some .notEnoughPlayers)
  else
    let g := { g with
      players := g.players.map (fun (e : String × Player) => (e.1, e.2.resetForNewRound)) }
    let roundNumber := g.roundHistory.length + 1
    let round := NewRound roundNumber secretWord g.getPlayerIDs js imposterIdx
    let g := { g with
      currentRound := some round,
      players := g.players.map (fun (e : String × Player) =>
        (e.1, { e.2 with role := if e.1 = round.imposterID then RoleImposter else RoleVilek })),
      phase := PhaseRoleAssignment }
    (g, none)

/-- `Game.TransitionToSubmission`. -/
def Game.transitionToSubmission (g : Game) : Game × Option GameError :=
  if g.phase ≠ PhaseRoleAssignment then (g, some .invalidTransition)
  else ({ g with phase := PhaseSubmission }, none)

/-- Whitespace as `strings.TrimSpace` strips it: the ASCII cases of Go's
`unicode.IsSpace`, namely space, `\t`, `\n`, vertical tab (0x0B), form feed
(0x0C) and `\r` (the game's words are ASCII). -/
def isSpaceChar (c : Char) : Bool :=
  c = ' ' ∨ c = '\t' ∨ c = '\n' ∨ c = '\x0B' ∨ c = '\x0C' ∨ c = '\r'

/-- `strings.TrimSpace`: drop leading and trailing whitespace. -/
def trimSpace (s : String) : String :=
  String.mk (((s.toList.dropWhile isSpaceChar).reverse.dropWhile isSpaceChar).reverse)

/-- `Game.SubmitWord`: the checks in source order (phase, round present,
trimmed word non-empty, player exists, not yet submitted, then
`AddSubmission`'s turn check); only the fully successful path mutates. -/
def Game.submitWord (g : Game) (playerID word : String) : Game × Option GameError :=
  if g.phase ≠ PhaseSubmission then (g, some .invalidPhase)
  else match g.currentRound with
  | none => (g, some .invalidPhase)
  | some round =>
    let word := trimSpace word
    if word = "" then (g, some .emptyWord)
    else match g.players.lookup playerID with
    | none => (g, some .playerNotFound)
    | some player =>
      if player.hasSubmitted then (g, some .alreadySubmitted)
      else match round.addSubmission playerID player.nickname word with
      | .error e => (g, some e)
      | .ok round2 =>
        (({ g with
            currentRound := some round2,
            players := mapUpdate g.players playerID
              (fun p => { p with hasSubmitted := true }) } : Game), none)

/-- `Game.AllSubmitted`. -/
def Game.allSubmitted (g : Game) : Bool :=
  match g.currentRound with
  | none => false
  | some r => r.allSubmitted

/-- `Game.TransitionToVoting`. -/
def Game.transitionToVoting (g : Game) : Game × Option GameError :=
  if g.phase ≠ PhaseSubmission then (g, some .invalidTransition)
  else ({ g with phase := PhaseVoting }, none)

/-- `Game.CastVote`: the checks in source order (phase, round present,
self-vote, voter exists, voter has not voted, target exists, then
`AddVote`'s duplicate check); only the fully successful path mutates. -/
def Game.castVote (g : Game) (voterID targetID : String) : Game × Option GameError :=
  if g.phase ≠ PhaseVoting then (g, some .invalidPhase)
  else match g.currentRound with
  | none => (g, some .invalidPhase)
  | some round =>
    if voterID = targetID then (g, some .cannotVoteSelf)
    else match g.players.lookup voterID with
    | none => (g, some .playerNotFound)
    | some voter =>
      if voter.hasVoted then (g, some .alreadyVoted)
      else if (g.players.lookup targetID).isNone then (g, some .invalidTargetID)
      else match round.addVote voterID targetID with
      | .error e => (g, some e)
      | .ok round2 =>
        (({ g with
            currentRound := some round2,
            players := mapUpdate g.players voterID
              (fun p => { p with hasVoted := true }) } : Game), none)

/-- `Game.AllVoted`. -/
def Game.allVoted (g : Game) : Bool :=
  match g.currentRound with
  | none => false
  | some r => r.allVoted g.players.length

/-- `Game.EndRound`: requires VOTING and a round; computes the results
(mutating the round's winner), appends the round to the history, moves to
RESULTS.  (In Go the history entry and `CurrentRound` alias one object; both
components here receive the updated round.) -/
def Game.endRound (g : Game) : Game × Except GameError (List VoteResult × String) :=
  if g.phase ≠ PhaseVoting then (g, .error .invalidPhase)
  else match g.currentRound with
  | none => (g, .error .invalidPhase)
  | some round =>
    let res := round.calculateResults g.players
    (({ g with
        currentRound := some res.2.2,
        roundHistory := g.roundHistory ++ [res.2.2],
        phase := PhaseResults } : Game), .ok (res.1, res.2.1))

/-- `Game.GetPlayerInfoList`. -/
def Game.getPlayerInfoList (g : Game) : List PlayerInfo :=
  g.players.map (fun e => e.2.toInfo)

/-- `Game.GetVoteProgress` (`VoteUpdatePayload` as a pair: voted count,
total players). -/
def Game.getVoteProgress (g : Game) : Option (Nat × Nat) :=
  match g.currentRound with
  | none => none
  | some r => some (r.getVotedCount, g.players.length)

/-- `Game.IsHost`. -/
def Game.isHost (g : Game) (playerID : String) : Bool :=
  g.hostID = playerID

/-! ### Hub (`hub.go`): room-code generation and registration -/

def DefaultRoomCodeLength : Nat := 6

/-- `RoomCodeChars`, the restricted unambiguous alphabet. -/
def RoomCodeChars : List Char := "ABCDEFGHJKLMNPQRSTUVWXYZ23456789".toList

/-- `GameHub.generateRoomCode`: `crypto/rand.Read` fills a byte buffer of the
configured length (here the explicit `bytes` argument); each byte indexes the
alphabet modulo its length.  The `getD` default is unreachable since the
index is reduced modulo the length. -/
def generateRoomCode (bytes : List Nat) : List Char :=
  bytes.map (fun x => RoomCodeChars.getD (x % RoomCodeChars.length) 'A')

/-- The retry loop of `GameHub.CreateGame`: one byte list per attempt; break
on the first code not yet registered, otherwise keep the last generated code
(the Go loop leaves `roomCode` holding the final attempt).  The Go loop makes
at least one attempt, so callers supply a non-empty `rands`. -/
def genLoopGo (sessions : List (List Char)) : List (List Nat) → List Char
  | [] => []
  | r :: rest =>
    let code := generateRoomCode r
    if sessions.contains code then
      match rest with
      | [] => code
      | _ :: _ => genLoopGo sessions rest
    else code

/-- `GameHub.CreateGame`, projected to the room-code registry: the sessions
map is kept as its key list; the created `Game`/`GameSession` pair carries no
further logic relevant here.  After the loop the code is re-checked and the
hub errors out instead of registering a duplicate. -/
def createGame (sessions : List (List Char)) (rands : List (List Nat)) :
    Except String (List (List Char) × List Char) :=
  let roomCode := genLoopGo sessions rands
  if sessions.contains roomCode then .error "failed to generate unique room code"
  else .ok (sessions ++ [roomCode], roomCode)

/-! ### Session (`session.go`): the `GetGameState` projection -/

/-- The `map[string]interface{}` snapshot built by `GameSession.GetGameState`;
keys that the Go code only sets conditionally are `Option` fields. -/
structure GameStateView where
  phase : String
  players : List PlayerInfo
  hostId : String
  canStart : Bool
  submissions : Option (List Submission) := none
  currentPlayerId : Option String := none
  voteProgress : Option (Nat × Nat) := none
  results : Option (List VoteResult) := none
  winner : Option String := none
  imposterId : Option String := none
  secretWord : Option String := none
  role : Option String := none
deriving DecidableEq, Repr

/-- The trailing section of `GetGameState` ("Add player's role if in game"),
split out as its own definition over the snapshot-so-far and the game. -/
def roleSection (sg : GameStateView × Game) (playerID : String) :
    GameStateView × Game :=
  let state := sg.1
  let g := sg.2
  match g.players.lookup playerID with
  | some player =>
    if player.role ≠ "" then
      let state := { state with role := some player.role }
      if player.role = RoleVilek ∧ g.currentRound.isSome then
        ({ state with
           secretWord := g.currentRound.map (fun r => r.secretWord) }, g)
      else (state, g)
    else (state, g)
  | none => (state, g)

/-- `GameSession.GetGameState` (the session wrapper holds the game under a
lock; locking is invisible here).  Returns the snapshot together with the
game afterwards: in the RESULTS branch the Go code calls `CalculateResults`,
which writes the round's winner through the `CurrentRound` pointer, so the
game is returned updated there.  (In Go the last `RoundHistory` entry aliases
the same round object; the claims concern `CurrentRound`, which is what the
model updates.) -/
def getGameState (g : Game) (playerID : String) : GameStateView × Game :=
  let state : GameStateView :=
    { phase := g.phase, players := g.getPlayerInfoList, hostId := g.hostID,
      canStart := g.canStart }
  let sg : GameStateView × Game :=
    if g.phase = PhaseSubmission then
      match g.currentRound with
      | some r =>
        ({ state with
           submissions := some r.submissions,
           currentPlayerId := some r.getCurrentPlayerID }, g)
      | none => (state, g)
    else if g.phase = PhaseVoting then
      ({ state with voteProgress := g.getVoteProgress }, g)
    else if g.phase = PhaseResults then
      match g.currentRound with
      | some r =>
        let res := r.calculateResults g.players
        ({ state with
           results := some res.1,
           winner := some res.2.2.winner,
           imposterId := some res.2.2.imposterID,
           secretWord := some res.2.2.secretWord },
         { g with currentRound := some res.2.2 })
      | none => (state, g)
    else (state, g)
  roleSection sg playerID

/-! ### Concrete states used to instantiate the theorems

`gLobby4` is a lobby with four players.  `gSub` / `gVote` are mid-round
states reachable from it: `StartRound` with imposter draw `p3`, then
`TransitionToSubmission` (and, for `gVote`, all submissions,
`TransitionToVoting` and one vote by `p1`); the submission lists are left
empty where no claim consults them.  `gEx4` is the state after `EndRound`
(all votes on the imposter `p1`, winner VILEK) followed by
`RemovePlayer "p1"`, which any phase permits. -/

def pl4 : List (String × Player) :=
  [("p1", NewPlayer "p1" "ann"), ("p2", NewPlayer "p2" "bob"),
   ("p3", NewPlayer "p3" "cyd"), ("p4", NewPlayer "p4" "dee")]

def gLobby4 : Game := { NewGame "ROOM" with players := pl4, hostID := "p1" }

def rEx2 : Round :=
  { number := 1, secretWord := "neon", imposterID := "p1", submissions := [],
    votes := [NewVote "p2" "p1", NewVote "p3" "p1", NewVote "p1" "p2", NewVote "p4" "p2"],
    currentPlayerIdx := 4, playerOrder := ["p1", "p2", "p3", "p4"], winner := "" }

def rW2 : Round :=
  { number := 1, secretWord := "neon", imposterID := "p1", submissions := [],
    votes := [NewVote "p2" "p1", NewVote "p3" "p1", NewVote "p4" "p1", NewVote "p1" "p2"],
    currentPlayerIdx := 4, playerOrder := ["p1", "p2", "p3", "p4"], winner := "" }

def rEx4 : Round :=
  { number := 1, secretWord := "neon", imposterID := "p1", submissions := [],
    votes := [NewVote "p2" "p1", NewVote "p3" "p1", NewVote "p4" "p1"],
    currentPlayerIdx := 4, playerOrder := ["p1", "p2", "p3", "p4"], winner := RoleVilek }

def gEx4 : Game :=
  { id := "ROOM", hostID := "p2",
    players := [("p2", { NewPlayer "p2" "bob" with role := RoleVilek, hasVoted := true }),
                ("p3", { NewPlayer "p3" "cyd" with role := RoleVilek, hasVoted := true }),
                ("p4", { NewPlayer "p4" "dee" with role := RoleVilek, hasVoted := true })],
    currentRound := some rEx4, roundHistory := [rEx4], phase := PhaseResults,
    settings := DefaultGameSettings }

def rSub : Round :=
  { number := 1, secretWord := "neon", imposterID := "p3", submissions := [], votes := [],
    currentPlayerIdx := 0, playerOrder := ["p1", "p2", "p3", "p4"], winner := "" }

def plR : List (String × Player) :=
  [("p1", { NewPlayer "p1" "ann" with role := RoleVilek }),
   ("p2", { NewPlayer "p2" "bob" with role := RoleVilek }),
   ("p3", { NewPlayer "p3" "cyd" with role := RoleImposter }),
   ("p4", { NewPlayer "p4" "dee" with role := RoleVilek })]

def gSub : Game :=
  { id := "ROOM", hostID := "p1", players := plR, currentRound := some rSub,
    roundHistory := [], phase := PhaseSubmission, settings := DefaultGameSettings }

def rSubAfter : Round :=
  { number := 1, secretWord := "neon", imposterID := "p3",
    submissions := [NewSubmission "p1" "ann" "hi" 1], votes := [],
    currentPlayerIdx := 1, playerOrder := ["p1", "p2", "p3", "p4"], winner := "" }

def rEx6 : Round :=
  { number := 1, secretWord := "w", imposterID := "p1",
    submissions := [NewSubmission "p1" "ann" "hi" 1], votes := [],
    currentPlayerIdx := 1, playerOrder := ["p1"], winner := "" }

def rEx6b : Round :=
  { number := 1, secretWord := "w", imposterID := "p1",
    submissions := [NewSubmission "p1" "ann" "hi" 1, NewSubmission "" "x" "y" 2],
    votes := [], currentPlayerIdx := 2, playerOrder := ["p1"], winner := "" }

def rVote : Round :=
  { number := 1, secretWord := "neon", imposterID := "p3",
    submissions := [], votes := [NewVote "p1" "p3"],
    currentPlayerIdx := 4, playerOrder := ["p1", "p2", "p3", "p4"], winner := "" }

def gVote : Game :=
  { id := "ROOM", hostID := "p1",
    players := [("p1", { NewPlayer "p1" "ann" with role := RoleVilek, hasVoted := true }),
                ("p2", { NewPlayer "p2" "bob" with role := RoleVilek }),
                ("p3", { NewPlayer "p3" "cyd" with role := RoleImposter }),
                ("p4", { NewPlayer "p4" "dee" with role := RoleVilek })],
    currentRound := some rVote, roundHistory := [], phase := PhaseVoting,
    settings := DefaultGameSettings }

/-- The alignment invariant of the spec: the turn index counts the
submissions, and submission `i` was made by `playerOrder[i]`. -/
def subAligned (r : Round) : Prop :=
  r.currentPlayerIdx = r.submissions.length ∧
  ∀ i, i < r.submissions.length →
    i < r.playerOrder.length ∧
    (r.submissions.getD i (NewSubmission "" "" "" 0)).playerId = r.playerOrder.getD i ""

/-! ### Theorems for the claims -/

/-- C10: `Round.GetCurrentPlayerID` is total: once `CurrentPlayerIdx` reaches
the length of `playerOrder` it returns `""` (and `AllSubmitted` holds), so
`IsPlayerTurn p` is false for every real (non-empty) player id `p`. -/
theorem c10_current_player_total (r : Round) (p : String)
    (h : r.currentPlayerIdx ≥ r.playerOrder.length) :
    r.getCurrentPlayerID = "" ∧ r.allSubmitted = true ∧
    (p ≠ "" → r.isPlayerTurn p = false) := by
  refine ⟨?_, ?_, ?_⟩
  · simp [Round.getCurrentPlayerID, h]
  · simp [Round.allSubmitted, h]
  · intro hp
    simp [Round.isPlayerTurn, Round.getCurrentPlayerID, h]
    exact fun hc => absurd hc.symm hp

theorem c10_current_player_total_witness :
    rVote.currentPlayerIdx ≥ rVote.playerOrder.length ∧
    rVote.getCurrentPlayerID = "" ∧ rVote.allSubmitted = true ∧
    rVote.isPlayerTurn "p1" = false :=
  ⟨by decide,
   (c10_current_player_total rVote "p1" (by decide)).1,
   (c10_current_player_total rVote "p1" (by decide)).2.1,
   (c10_current_player_total rVote "p1" (by decide)).2.2 (by decide)⟩

/-- C3: evaluating `RemovePlayer` at the failing input.  Add `p1` to a fresh
game (`p1` becomes host), then remove `p1`: the `len(players) > 0` guard in
`RemovePlayer` skips the host reassignment, so the empty game keeps
`hostId = "p1"`, violating the invariant that `hostId` is empty or a current
player; a subsequently added player would not become host, although
`AddPlayer` documents that the first player does. -/
theorem c3_stale_host_after_last_removal :
    ((((NewGame "ROOM").addPlayer "p1" "ann").1.removePlayer "p1").1.players = [] ∧
     (((NewGame "ROOM").addPlayer "p1" "ann").1.removePlayer "p1").1.hostID = "p1" ∧
     (((NewGame "ROOM").addPlayer "p1" "ann").1.removePlayer "p1").2 = none ∧
     "p1" ≠ "") := by
  refine ⟨rfl, rfl, rfl, by decide⟩

/-- C2 counterexample: in `rEx2`, candidates `p1` and `p2` tie at the
maximum of 2 votes, so no candidate has a strictly greatest count and the
claim's rule demands winner Imposter; but with the imposter `p1` first in the
map iteration order the loop keeps `maxVotedPlayerID = "p1"` and the code
returns winner Vilek. -/
theorem c2_tie_counterexample :
    voteCount rEx2.votes "p1" = 2 ∧ voteCount rEx2.votes "p2" = 2 ∧
    (∀ c ∈ pl4.map Prod.fst, ∃ d ∈ pl4.map Prod.fst,
        d ≠ c ∧ voteCount rEx2.votes c ≤ voteCount rEx2.votes d) ∧
    (rEx2.calculateResults pl4).2.1 = RoleVilek ∧
    RoleVilek ≠ RoleImposter := by
  refine ⟨rfl, rfl, by decide, rfl, by decide⟩

/-- C4 counterexample: `gEx4` is the RESULTS-phase state after a round that
the Vileks won (all votes on the imposter `p1`) followed by
`RemovePlayer "p1"`.  `GetGameState` is not read-only there: it re-runs
`CalculateResults` over the remaining players, which overwrites the current
round's winner from VILEK to IMPOSTER. -/
theorem c4_mutation_counterexample :
    gEx4.currentRound.map Round.winner = some RoleVilek ∧
    (getGameState gEx4 "p2").2.currentRound.map Round.winner = some RoleImposter ∧
    (getGameState gEx4 "p2").2 ≠ gEx4 := by
  refine ⟨rfl, rfl, by decide⟩

/-- C5 counterexample: in submission phase `gSub` it is `p1`'s turn; the
out-of-turn caller `p2` submitting an empty word receives EmptyWord, not the
NotYourTurn the claim promises every other caller, because `SubmitWord`
checks the trimmed word before the turn. -/
theorem c5_empty_word_counterexample :
    rSub.getCurrentPlayerID = "p1" ∧
    gSub.currentRound = some rSub ∧
    (gSub.submitWord "p2" "").2 = some GameError.emptyWord ∧
    GameError.emptyWord ≠ GameError.notYourTurn := by
  refine ⟨rfl, rfl, by decide, by decide⟩

/-- C6 counterexample: after the single player of a one-player round has
submitted, `GetCurrentPlayerID` returns the sentinel `""`, so a second
`AddSubmission` with the empty caller id is accepted: the round ends with
two submissions over a one-element `playerOrder`, so `submissions[1]` has no
matching `playerOrder[1]` and the alignment claimed for all `i` fails. -/
theorem c6_empty_id_counterexample :
    (NewRound 1 "w" ["p1"] [] 0).addSubmission "p1" "ann" "hi" = .ok rEx6 ∧
    rEx6.addSubmission "" "x" "y" = .ok rEx6b ∧
    rEx6b.submissions.length = 2 ∧ rEx6b.playerOrder.length = 1 := by
  refine ⟨rfl, rfl, rfl, rfl⟩

/-- C7 counterexample: in voting phase `gVote`, voter `p1` has already voted
and the target `zz` is not a current player; the code answers AlreadyVoted
where the claim requires InvalidTargetId, because `CastVote` checks the
voter's flag before validating the target. -/
theorem c7_precedence_counterexample :
    (gVote.players.lookup "zz").isNone = true ∧
    (gVote.castVote "p1" "zz").2 = some GameError.alreadyVoted ∧
    GameError.alreadyVoted ≠ GameError.invalidTargetID := by
  refine ⟨rfl, rfl, by decide⟩

/-- The six allowed phase edges of the specification's transition table. -/
def allowedEdges : List (String × String) :=
  [(PhaseLobby, PhaseRoleAssignment), (PhaseRoleAssignment, PhaseSubmission),
   (PhaseSubmission, PhaseVoting), (PhaseVoting, PhaseResults),
   (PhaseResults, PhaseRoleAssignment), (PhaseResults, PhaseLobby)]

theorem canTransitionTo_iff (p t : String) :
    canTransitionTo p t = true ↔ (p, t) ∈ allowedEdges := by
  unfold canTransitionTo validTransitions allowedEdges
  unfold PhaseLobby PhaseRoleAssignment PhaseSubmission PhaseVoting PhaseResults
  split_ifs with h1 h2 h3 h4 h5 <;>
    simp_all [List.contains_cons, List.contains_nil, Prod.ext_iff]

theorem canTrans_to_roleAssignment (p : String) :
    canTransitionTo p PhaseRoleAssignment = true ↔ (p = PhaseLobby ∨ p = PhaseResults) := by
  unfold canTransitionTo validTransitions
  unfold PhaseLobby PhaseRoleAssignment PhaseSubmission PhaseVoting PhaseResults
  split_ifs with h1 h2 h3 h4 h5 <;> simp_all [List.contains_cons, List.contains_nil]

theorem canTrans_to_submission (p : String) :
    canTransitionTo p PhaseSubmission = true ↔ p = PhaseRoleAssignment := by
  unfold canTransitionTo validTransitions
  unfold PhaseLobby PhaseRoleAssignment PhaseSubmission PhaseVoting PhaseResults
  split_ifs with h1 h2 h3 h4 h5 <;> simp_all [List.contains_cons, List.contains_nil]

theorem canTrans_to_voting (p : String) :
    canTransitionTo p PhaseVoting = true ↔ p = PhaseSubmission := by
  unfold canTransitionTo validTransitions
  unfold PhaseLobby PhaseRoleAssignment PhaseSubmission PhaseVoting PhaseResults
  split_ifs with h1 h2 h3 h4 h5 <;> simp_all [List.contains_cons, List.contains_nil]

theorem canTrans_to_results (p : String) :
    canTransitionTo p PhaseResults = true ↔ p = PhaseVoting := by
  unfold canTransitionTo validTransitions
  unfold PhaseLobby PhaseRoleAssignment PhaseSubmission PhaseVoting PhaseResults
  split_ifs with h1 h2 h3 h4 h5 <;> simp_all [List.contains_cons, List.contains_nil]

/-- C8: `Phase.CanTransitionTo` accepts exactly the six edges of the
transition table, and every phase-changing `Game` operation moves along one
of them: `StartRound` realises LOBBY→ROLE_ASSIGNMENT and
RESULTS→ROLE_ASSIGNMENT, `TransitionToSubmission`
ROLE_ASSIGNMENT→SUBMISSION, `TransitionToVoting` SUBMISSION→VOTING,
`EndRound` VOTING→RESULTS; whenever the edge an operation would take is not
in the table, the operation fails (InvalidTransition from the two explicit
transition methods, the InvalidPhase guard in `StartRound`/`EndRound`) and
the game is unchanged. -/
theorem c8_phase_transition_table :
    (∀ p t : String, canTransitionTo p t = true ↔ (p, t) ∈ allowedEdges) ∧
    ∀ g : Game,
      ((g.transitionToSubmission.2 = none →
          g.phase = PhaseRoleAssignment ∧
          g.transitionToSubmission.1.phase = PhaseSubmission ∧
          canTransitionTo g.phase g.transitionToSubmission.1.phase = true) ∧
        (¬ canTransitionTo g.phase PhaseSubmission = true →
          g.transitionToSubmission = (g, some GameError.invalidTransition))) ∧
      ((g.transitionToVoting.2 = none →
          g.phase = PhaseSubmission ∧
          g.transitionToVoting.1.phase = PhaseVoting ∧
          canTransitionTo g.phase g.transitionToVoting.1.phase = true) ∧
        (¬ canTransitionTo g.phase PhaseVoting = true →
          g.transitionToVoting = (g, some GameError.invalidTransition))) ∧
      (∀ w js k,
        ((g.startRound w js k).2 = none →
          (g.startRound w js k).1.phase = PhaseRoleAssignment ∧
          canTransitionTo g.phase (g.startRound w js k).1.phase = true) ∧
        (¬ canTransitionTo g.phase PhaseRoleAssignment = true →
          g.startRound w js k = (g, some GameError.invalidPhase))) ∧
      ((g.endRound.2.isOk = true →
          g.phase = PhaseVoting ∧
          g.endRound.1.phase = PhaseResults ∧
          canTransitionTo g.phase g.endRound.1.phase = true) ∧
        (¬ canTransitionTo g.phase PhaseResults = true →
          g.endRound = (g, Except.error GameError.invalidPhase))) := by
  refine ⟨canTransitionTo_iff, fun g => ⟨⟨?_, ?_⟩, ⟨?_, ?_⟩, fun w js k => ⟨?_, ?_⟩, ⟨?_, ?_⟩⟩⟩
  · intro h
    by_cases hp : g.phase = PhaseRoleAssignment
    · simp [Game.transitionToSubmission, hp]
      exact (canTrans_to_submission _).mpr rfl
    · simp [Game.transitionToSubmission, hp] at h
  · intro hn
    have hp : g.phase ≠ PhaseRoleAssignment := fun he => hn ((canTrans_to_submission _).mpr he)
    simp [Game.transitionToSubmission, hp]
  · intro h
    by_cases hp : g.phase = PhaseSubmission
    · simp [Game.transitionToVoting, hp]
      exact (canTrans_to_voting _).mpr rfl
    · simp [Game.transitionToVoting, hp] at h
  · intro hn
    have hp : g.phase ≠ PhaseSubmission := fun he => hn ((canTrans_to_voting _).mpr he)
    simp [Game.transitionToVoting, hp]
  · intro h
    by_cases hp : g.phase ≠ PhaseLobby ∧ g.phase ≠ PhaseResults
    · simp only [Game.startRound, if_pos hp] at h
      exact absurd h (by simp)
    · by_cases hs : g.players.length < g.settings.minPlayers
      · simp only [Game.startRound, if_neg hp, if_pos hs] at h
        exact absurd h (by simp)
      · have hlr : g.phase = PhaseLobby ∨ g.phase = PhaseResults := by tauto
        have h1 : (g.startRound w js k).1.phase = PhaseRoleAssignment := by
          simp only [Game.startRound, if_neg hp, if_neg hs]
        refine ⟨h1, ?_⟩
        rw [h1]
        exact (canTrans_to_roleAssignment _).mpr hlr
  · intro hn
    have hp : g.phase ≠ PhaseLobby ∧ g.phase ≠ PhaseResults := by
      constructor
      · exact fun he => hn ((canTrans_to_roleAssignment _).mpr (Or.inl he))
      · exact fun he => hn ((canTrans_to_roleAssignment _).mpr (Or.inr he))
    simp only [Game.startRound, if_pos hp]
  · intro h
    by_cases hp : g.phase = PhaseVoting
    · cases hr : g.currentRound with
      | none => simp [Game.endRound, hp, hr, Except.isOk, Except.toBool] at h
      | some round =>
          have h1 : g.endRound.1.phase = PhaseResults := by
            simp [Game.endRound, hp, hr]
          refine ⟨hp, h1, ?_⟩
          rw [h1, hp]
          exact (canTrans_to_results _).mpr rfl
    · simp [Game.endRound, hp, Except.isOk, Except.toBool] at h
  · intro hn
    have hp : g.phase ≠ PhaseVoting := fun he => hn ((canTrans_to_results _).mpr he)
    simp [Game.endRound, hp]

theorem c8_phase_transition_table_witness :
    canTransitionTo "LOBBY" "ROLE_ASSIGNMENT" = true ∧
    gSub.transitionToVoting.1.phase = PhaseVoting ∧
    gVote.transitionToVoting = (gVote, some GameError.invalidTransition) :=
  ⟨(c8_phase_transition_table.1 "LOBBY" "ROLE_ASSIGNMENT").mpr (by decide),
   ((c8_phase_transition_table.2 gSub).2.1.1 (by decide)).2.1,
   (c8_phase_transition_table.2 gVote).2.1.2 (by decide)⟩

theorem generateRoomCode_spec (bytes : List Nat) :
    (generateRoomCode bytes).length = bytes.length ∧
    ∀ c ∈ generateRoomCode bytes, c ∈ RoomCodeChars := by
  constructor
  · simp [generateRoomCode]
  · intro c hc
    simp only [generateRoomCode, List.mem_map] at hc
    obtain ⟨x, _, hx⟩ := hc
    have hlt : x % RoomCodeChars.length < RoomCodeChars.length :=
      Nat.mod_lt _ (by decide)
    rw [← hx, List.getD_eq_getElem _ _ hlt]
    exact List.getElem_mem hlt

theorem genLoopGo_cons (sessions : List (List Char)) (r : List Nat)
    (rest : List (List Nat)) :
    genLoopGo sessions (r :: rest) =
      if sessions.contains (generateRoomCode r) then
        (match rest with
         | [] => generateRoomCode r
         | _ :: _ => genLoopGo sessions rest)
      else generateRoomCode r := rfl

theorem genLoopGo_mem (sessions : List (List Char)) :
    ∀ (rands : List (List Nat)), rands ≠ [] →
      ∃ r ∈ rands, genLoopGo sessions rands = generateRoomCode r := by
  intro rands
  induction rands with
  | nil => intro h; exact absurd rfl h
  | cons r rest ih =>
      intro _
      by_cases hc : sessions.contains (generateRoomCode r) = true
      · cases rest with
        | nil =>
            refine ⟨r, List.mem_cons_self r [], ?_⟩
            rw [genLoopGo_cons, if_pos hc]
        | cons r2 rest2 =>
            obtain ⟨w, hw, he⟩ := ih (by simp)
            refine ⟨w, List.mem_cons_of_mem r hw, ?_⟩
            rw [genLoopGo_cons, if_pos hc]
            exact he
      · refine ⟨r, List.mem_cons_self r rest, ?_⟩
        rw [genLoopGo_cons, if_neg hc]

/-- C9: with the ten attempt draws of `CreateGame` (each a byte buffer of the
configured length, default 6), a successfully registered room code has
exactly that length, uses only the unambiguous alphabet, was not previously
registered, and is the only addition to the registry; and when every attempt
collides with an existing code, `CreateGame` returns the error instead of
registering a duplicate. -/
theorem c9_room_codes (sessions : List (List Char)) (rands : List (List Nat))
    (hn : rands.length = 10)
    (hlen : ∀ r ∈ rands, r.length = DefaultRoomCodeLength) :
    (∀ sessions2 code, createGame sessions rands = .ok (sessions2, code) →
        code.length = DefaultRoomCodeLength ∧ (∀ c ∈ code, c ∈ RoomCodeChars) ∧
        code ∉ sessions ∧ sessions2 = sessions ++ [code]) ∧
    ((∀ r ∈ rands, generateRoomCode r ∈ sessions) →
        createGame sessions rands = .error "failed to generate unique room code") := by
  have hne : rands ≠ [] := by intro h; rw [h] at hn; simp at hn
  obtain ⟨r, hr, hcode⟩ := genLoopGo_mem sessions rands hne
  constructor
  · intro sessions2 code hok
    unfold createGame at hok
    by_cases hc : sessions.contains (genLoopGo sessions rands) = true
    · rw [if_pos hc] at hok
      exact absurd hok (by simp)
    · rw [if_neg hc] at hok
      simp only [Except.ok.injEq, Prod.mk.injEq] at hok
      obtain ⟨hs2, hcd⟩ := hok
      subst hcd
      refine ⟨?_, ?_, ?_, hs2.symm⟩
      · rw [hcode, (generateRoomCode_spec r).1]
        exact hlen r hr
      · rw [hcode]
        exact (generateRoomCode_spec r).2
      · simpa using hc
  · intro hall
    have hc : sessions.contains (genLoopGo sessions rands) = true := by
      rw [hcode]
      simpa using hall r hr
    unfold createGame
    rw [if_pos hc]

theorem c9_room_codes_witness :
    (['A', 'B', 'C', 'D', 'E', 'F'] : List Char).length = DefaultRoomCodeLength ∧
    (∀ c ∈ (['A', 'B', 'C', 'D', 'E', 'F'] : List Char), c ∈ RoomCodeChars) ∧
    (['A', 'B', 'C', 'D', 'E', 'F'] : List Char) ∉ ([] : List (List Char)) ∧
    [(['A', 'B', 'C', 'D', 'E', 'F'] : List Char)] = [] ++ [['A', 'B', 'C', 'D', 'E', 'F']] :=
  (c9_room_codes [] (List.replicate 10 [0, 1, 2, 3, 4, 5]) (by decide) (by decide)).1
    [['A', 'B', 'C', 'D', 'E', 'F']] ['A', 'B', 'C', 'D', 'E', 'F'] rfl

theorem foldl_accused_stay (votes : List Vote) (cnt : Nat) (c : String) :
    ∀ (l : List (String × Player)), (∀ e ∈ l, voteCount votes e.1 ≤ cnt) →
      l.foldl (accusedStep votes) (cnt, c) = (cnt, c) := by
  intro l
  induction l with
  | nil => intro _; rfl
  | cons e l ih =>
      intro h
      have he : voteCount votes e.1 ≤ cnt := h e (List.mem_cons_self e l)
      have hstep : accusedStep votes (cnt, c) e = (cnt, c) := by
        simp only [accusedStep]
        have : ¬ voteCount votes e.1 > cnt := by omega
        simp [this]
      rw [List.foldl_cons, hstep]
      exact ih (fun x hx => h x (List.mem_cons_of_mem e hx))

theorem foldl_accused_max (votes : List Vote) (c : String) :
    ∀ (l : List (String × Player)) (acc : Nat × String),
      acc.1 < voteCount votes c →
      (∀ d ∈ l, d.1 ≠ c → voteCount votes d.1 < voteCount votes c) →
      c ∈ l.map Prod.fst →
      l.foldl (accusedStep votes) acc = (voteCount votes c, c) := by
  intro l
  induction l with
  | nil => intro acc _ _ hc; simp at hc
  | cons e l ih =>
      intro acc hacc hlt hc
      by_cases hec : e.1 = c
      · have hstep : accusedStep votes acc e = (voteCount votes c, c) := by
          simp only [accusedStep, hec]
          simp [hacc]
        rw [List.foldl_cons, hstep]
        apply foldl_accused_stay
        intro x hx
        by_cases hxc : x.1 = c
        · rw [hxc]
        · exact Nat.le_of_lt (hlt x (List.mem_cons_of_mem e hx) hxc)
      · have hlt_e : voteCount votes e.1 < voteCount votes c :=
          hlt e (List.mem_cons_self e l) hec
        have hacc2 : (accusedStep votes acc e).1 < voteCount votes c := by
          simp only [accusedStep]
          split <;> omega
        have hc2 : c ∈ l.map Prod.fst := by
          rw [List.map_cons] at hc
          rcases List.mem_cons.mp hc with h | h
          · exact absurd h.symm hec
          · exact h
        rw [List.foldl_cons]
        exact ih _ hacc2 (fun d hd => hlt d (List.mem_cons_of_mem e hd)) hc2

/-- C2 amended: when some current player `c` holds a strictly greatest
(hence positive) vote count, `CalculateResults` accuses exactly `c`
regardless of map iteration order, and the winner is Vilek iff `c` is the
imposter (otherwise Imposter); the winner is also stored in the round.
Without such a unique maximum the outcome depends on the iteration order
(see the tie counterexample). -/
theorem c2_strict_max_winner (r : Round) (players : List (String × Player)) (c : String)
    (hc : c ∈ players.map Prod.fst)
    (hpos : 0 < voteCount r.votes c)
    (hmax : ∀ d ∈ players.map Prod.fst, d ≠ c → voteCount r.votes d < voteCount r.votes c) :
    ((r.calculateResults players).2.1 = RoleVilek ↔ c = r.imposterID) ∧
    ((r.calculateResults players).2.1 = RoleVilek ∨
      (r.calculateResults players).2.1 = RoleImposter) ∧
    (r.calculateResults players).2.2.winner = (r.calculateResults players).2.1 := by
  have hfold : players.foldl (accusedStep r.votes) (0, "") = (voteCount r.votes c, c) :=
    foldl_accused_max r.votes c players (0, "") hpos
      (fun d hd hne => hmax d.1 (List.mem_map_of_mem Prod.fst hd) hne) hc
  simp only [Round.calculateResults, hfold]
  by_cases h : c = r.imposterID <;> simp [h, RoleVilek, RoleImposter]

theorem c2_strict_max_winner_witness :
    ((rW2.calculateResults pl4).2.1 = RoleVilek ↔ "p1" = rW2.imposterID) ∧
    ((rW2.calculateResults pl4).2.1 = RoleVilek ∨
      (rW2.calculateResults pl4).2.1 = RoleImposter) ∧
    (rW2.calculateResults pl4).2.2.winner = (rW2.calculateResults pl4).2.1 :=
  c2_strict_max_winner rW2 pl4 "p1" (by decide) (by decide) (by decide)

theorem map_fst_map_pair (l : List (String × Player)) (f : String × Player → Player) :
    (l.map (fun e => (e.1, f e))).map Prod.fst = l.map Prod.fst := by
  simp [List.map_map, Function.comp]

theorem startRound_success_eq (g : Game) (w : String) (js : List Nat) (k : Nat)
    (h1 : ¬(g.phase ≠ PhaseLobby ∧ g.phase ≠ PhaseResults))
    (h2 : ¬ g.players.length < g.settings.minPlayers) :
    g.startRound w js k =
      (({ g with
         players := g.players.map (fun e =>
           (e.1, { e.2.resetForNewRound with
                   role := if e.1 = (NewRound (g.roundHistory.length + 1) w
                       (g.players.map Prod.fst) js k).imposterID
                     then RoleImposter else RoleVilek })),
         currentRound := some (NewRound (g.roundHistory.length + 1) w
           (g.players.map Prod.fst) js k),
         phase := PhaseRoleAssignment } : Game), none) := by
  simp only [Game.startRound, if_neg h1, if_neg h2]
  have hfun : ((fun (e : String × Player) => e.1) ∘ fun (e : String × Player) =>
      ((e.1, { id := e.2.id, nickname := e.2.nickname, role := "", hasVoted := false,
               hasSubmitted := false, status := e.2.status }) : String × Player)) =
      Prod.fst := funext (fun x => rfl)
  simp [Game.getPlayerIDs, List.map_map, Function.comp, Player.resetForNewRound, hfun]

theorem roles_pointwise (l : List (String × Player)) (imp : String) :
    ∀ e ∈ l.map (fun e => (e.1, { e.2.resetForNewRound with
        role := if e.1 = imp then RoleImposter else RoleVilek })),
      e.2.role = if e.1 = imp then RoleImposter else RoleVilek := by
  intro e he
  obtain ⟨x, hx, rfl⟩ := List.mem_map.mp he
  rfl

theorem filter_role_count (l : List (String × Player)) (imp : String)
    (hnodup : (l.map Prod.fst).Nodup) (hmem : imp ∈ l.map Prod.fst) :
    ((l.map (fun e => (e.1, { e.2.resetForNewRound with
        role := if e.1 = imp then RoleImposter else RoleVilek }))).filter
      (fun e => e.2.role = RoleImposter)).length = 1 := by
  have h1 : ∀ e ∈ l.map (fun e => (e.1, { e.2.resetForNewRound with
      role := if e.1 = imp then RoleImposter else RoleVilek })),
      (decide (e.2.role = RoleImposter)) = decide (e.1 = imp) := by
    intro e he
    obtain ⟨x, hx, rfl⟩ := List.mem_map.mp he
    by_cases hxi : x.1 = imp <;> simp [hxi, RoleImposter, RoleVilek]
  rw [List.filter_congr h1, ← List.countP_eq_length_filter, List.countP_map]
  have h2 : ((fun (e : String × Player) => decide (e.1 = imp)) ∘
      (fun (e : String × Player) => ((e.1, { e.2.resetForNewRound with
        role := if e.1 = imp then RoleImposter else RoleVilek }) : String × Player))) =
      fun (x : String × Player) => decide (x.1 = imp) := funext fun x => rfl
  rw [h2]
  have h3 : List.countP (fun (x : String × Player) => decide (x.1 = imp)) l =
      List.countP (fun s => decide (s = imp)) (l.map Prod.fst) := by
    rw [List.countP_map]
    rfl
  rw [h3]
  have h4 : List.countP (fun s => decide (s = imp)) (l.map Prod.fst) =
      List.count imp (l.map Prod.fst) := by
    apply List.countP_congr
    intro x _
    constructor
    · intro h
      simpa using h
    · intro h
      simpa using h
  rw [h4]
  exact List.count_eq_one_of_mem hnodup hmem

/-- C1: a successful `StartRound` (the imposter draw is in range by
`rand.Intn`'s contract, and the Go map guarantees distinct player keys)
moves the game to ROLE_ASSIGNMENT and installs a round whose `ImposterID` is
one of the game's player ids; exactly one player then holds role Imposter —
the one whose id is `ImposterID` — and every other player holds Vilek, over
an unchanged player-id set. -/
theorem c1_single_imposter (g : Game) (w : String) (js : List Nat) (k : Nat)
    (hnodup : (g.players.map Prod.fst).Nodup)
    (hk : k < g.players.length)
    (hok : (g.startRound w js k).2 = none) :
    (g.startRound w js k).1.phase = PhaseRoleAssignment ∧
    ∃ rd, (g.startRound w js k).1.currentRound = some rd ∧
      rd.imposterID ∈ g.players.map Prod.fst ∧
      (g.startRound w js k).1.players.map Prod.fst = g.players.map Prod.fst ∧
      ((g.startRound w js k).1.players.filter
          (fun e => e.2.role = RoleImposter)).length = 1 ∧
      ∀ e ∈ (g.startRound w js k).1.players,
        e.2.role = if e.1 = rd.imposterID then RoleImposter else RoleVilek := by
  by_cases hp : g.phase ≠ PhaseLobby ∧ g.phase ≠ PhaseResults
  · simp only [Game.startRound, if_pos hp] at hok
    exact absurd hok (by simp)
  · by_cases hs : g.players.length < g.settings.minPlayers
    · simp only [Game.startRound, if_neg hp, if_pos hs] at hok
      exact absurd hok (by simp)
    · rw [startRound_success_eq g w js k hp hs]
      have hk2 : k < (g.players.map Prod.fst).length := by simpa using hk
      have hi : (NewRound (g.roundHistory.length + 1) w (g.players.map Prod.fst) js k).imposterID
          = (g.players.map Prod.fst)[k] := by
        simp [NewRound, List.getElem?_eq_getElem hk2]
      have hmem : (NewRound (g.roundHistory.length + 1) w
          (g.players.map Prod.fst) js k).imposterID ∈ g.players.map Prod.fst := by
        rw [hi]
        exact List.getElem_mem hk2
      exact ⟨rfl, _, rfl, hmem, map_fst_map_pair g.players _,
        filter_role_count g.players _ hnodup hmem,
        roles_pointwise g.players _⟩

theorem c1_single_imposter_witness :
    (gLobby4.startRound "neon" [1, 2, 0] 2).1.phase = PhaseRoleAssignment ∧
    ∃ rd, (gLobby4.startRound "neon" [1, 2, 0] 2).1.currentRound = some rd ∧
      rd.imposterID ∈ gLobby4.players.map Prod.fst ∧
      (gLobby4.startRound "neon" [1, 2, 0] 2).1.players.map Prod.fst
        = gLobby4.players.map Prod.fst ∧
      ((gLobby4.startRound "neon" [1, 2, 0] 2).1.players.filter
          (fun e => e.2.role = RoleImposter)).length = 1 ∧
      ∀ e ∈ (gLobby4.startRound "neon" [1, 2, 0] 2).1.players,
        e.2.role = if e.1 = rd.imposterID then RoleImposter else RoleVilek :=
  c1_single_imposter gLobby4 "neon" [1, 2, 0] 2 (by decide) (by decide) (by decide)

theorem addSubmission_ok (r r2 : Round) (pid nick word : String)
    (h : r.addSubmission pid nick word = .ok r2) :
    r.getCurrentPlayerID = pid ∧
    r2 = { r with
      submissions := r.submissions ++ [NewSubmission pid nick word (r.submissions.length + 1)],
      currentPlayerIdx := r.currentPlayerIdx + 1 } := by
  unfold Round.addSubmission at h
  by_cases ht : r.isPlayerTurn pid = true
  · rw [if_neg (by simp [ht])] at h
    simp only [Except.ok.injEq] at h
    exact ⟨by simpa [Round.isPlayerTurn] using ht, h.symm⟩
  · rw [if_pos (by simpa using ht)] at h
    exact absurd h (by simp)

/-- C6 amended: `NewRound`'s `playerOrder` is a permutation of the input ids
(same length, nodup when the inputs are distinct, the same members), the
fresh round satisfies the alignment invariant, and every successful
`AddSubmission` by a non-empty player id preserves it, appending a
submission whose `playerId` is `playerOrder` at the previous turn index.
(An empty caller id is accepted once the order is exhausted — see the
counterexample — which is why the preservation step assumes `pid ≠ ""`.) -/
theorem c6_order_perm_alignment :
    (∀ (number : Nat) (w : String) (ids : List String) (js : List Nat) (k : Nat),
      ((NewRound number w ids js k).playerOrder.Perm ids ∧
       (NewRound number w ids js k).playerOrder.length = ids.length ∧
       (ids.Nodup → (NewRound number w ids js k).playerOrder.Nodup) ∧
       (∀ x, x ∈ (NewRound number w ids js k).playerOrder ↔ x ∈ ids)) ∧
      subAligned (NewRound number w ids js k)) ∧
    (∀ (r r2 : Round) (pid nick word : String),
      subAligned r → pid ≠ "" → r.addSubmission pid nick word = .ok r2 →
      subAligned r2 ∧
      r.currentPlayerIdx < r.playerOrder.length ∧
      (r2.submissions.getD r.currentPlayerIdx (NewSubmission "" "" "" 0)).playerId
        = r.playerOrder.getD r.currentPlayerIdx "") := by
  constructor
  · intro number w ids js k
    have hperm := shuffle_perm ids js
    refine ⟨⟨hperm, hperm.length_eq, fun hn => hperm.nodup_iff.mpr hn,
      fun x => hperm.mem_iff⟩, ?_⟩
    exact ⟨rfl, fun i hi => absurd hi (by simp [NewRound])⟩
  · intro r r2 pid nick word haligned hpid hok
    obtain ⟨hturn, hr2⟩ := addSubmission_ok r r2 pid nick word hok
    have hidx : r.currentPlayerIdx < r.playerOrder.length := by
      by_contra hge
      have : r.getCurrentPlayerID = "" := by
        simp [Round.getCurrentPlayerID, Nat.le_of_not_lt hge]
      rw [hturn] at this
      exact hpid this
    have hcur : r.playerOrder.getD r.currentPlayerIdx "" = pid := by
      rw [← hturn]
      simp [Round.getCurrentPlayerID, Nat.not_le.mpr hidx]
    subst hr2
    have hlen2 : (r.submissions ++
        [NewSubmission pid nick word (r.submissions.length + 1)]).length
        = r.submissions.length + 1 := by simp
    refine ⟨⟨?_, ?_⟩, hidx, ?_⟩
    · simp [haligned.1]
    · intro i hi
      rw [hlen2] at hi
      rcases Nat.lt_or_ge i r.submissions.length with hlt | hge
      · have hold := haligned.2 i hlt
        refine ⟨hold.1, ?_⟩
        have : (r.submissions ++
            [NewSubmission pid nick word (r.submissions.length + 1)]).getD i
              (NewSubmission "" "" "" 0) =
            r.submissions.getD i (NewSubmission "" "" "" 0) := by
          simp [List.getElem?_append_left hlt]
        rw [this]
        exact hold.2
      · have hieq : i = r.submissions.length := by omega
        have hio : i < r.playerOrder.length := by
          rw [hieq, ← haligned.1]
          exact hidx
        refine ⟨hio, ?_⟩
        rw [hieq]
        have hgd : (r.submissions ++
            [NewSubmission pid nick word (r.submissions.length + 1)]).getD
              r.submissions.length (NewSubmission "" "" "" 0) =
            NewSubmission pid nick word (r.submissions.length + 1) := by
          simp [List.getElem?_append_right (Nat.le_refl _)]
        rw [hgd, ← haligned.1, hcur]
        rfl
    · have : (r.submissions ++
          [NewSubmission pid nick word (r.submissions.length + 1)]).getD
            r.currentPlayerIdx (NewSubmission "" "" "" 0) =
          NewSubmission pid nick word (r.submissions.length + 1) := by
        rw [haligned.1]
        simp [List.getElem?_append_right (Nat.le_refl _)]
      rw [this, hcur]
      rfl

theorem c6_order_perm_alignment_witness :
    (NewRound 1 "w" ["p1", "p2", "p3"] [1, 0] 0).playerOrder.Perm ["p1", "p2", "p3"] ∧
    (NewRound 1 "w" ["p1", "p2", "p3"] [1, 0] 0).playerOrder.Nodup ∧
    subAligned rSubAfter :=
  ⟨(c6_order_perm_alignment.1 1 "w" ["p1", "p2", "p3"] [1, 0] 0).1.1,
   (c6_order_perm_alignment.1 1 "w" ["p1", "p2", "p3"] [1, 0] 0).1.2.2.1 (by decide),
   (c6_order_perm_alignment.2 rSub rSubAfter "p1" "ann" "hi"
     (by constructor <;> simp [subAligned, rSub]) (by decide) rfl).1⟩

theorem submitWord_frame (g : Game) (pid w : String) :
    (g.submitWord pid w).1 = g ∨ (g.submitWord pid w).2 = none := by
  unfold Game.submitWord
  by_cases c1 : g.phase ≠ PhaseSubmission
  · simp [c1]
  · rw [if_neg c1]
    cases hr : g.currentRound with
    | none => simp
    | some round =>
        by_cases c2 : trimSpace w = ""
        · simp [c2]
        · simp only [if_neg c2]
          cases hl : List.lookup pid g.players with
          | none => simp
          | some pl =>
              by_cases c3 : pl.hasSubmitted
              · simp [c3]
              · simp only [Bool.not_eq_true] at c3
                simp only [c3]
                cases hadd : round.addSubmission pid pl.nickname (trimSpace w) with
                | error e => simp
                | ok r2 => simp

/-- C5 amended: `SubmitWord` succeeds only when the caller is the round's
current player; on any error the game is returned unchanged; and an
out-of-turn caller receives NotYourTurn exactly when it survives the checks
that run first (non-empty trimmed word, current player, not already
submitted). -/
theorem c5_submit_word (g : Game) (pid w : String) :
    ((g.submitWord pid w).2 = none →
      g.phase = PhaseSubmission ∧
      ∃ r, g.currentRound = some r ∧ r.getCurrentPlayerID = pid) ∧
    (∀ e, (g.submitWord pid w).2 = some e → (g.submitWord pid w).1 = g) ∧
    (∀ r pl, g.phase = PhaseSubmission → g.currentRound = some r →
      trimSpace w ≠ "" → g.players.lookup pid = some pl → pl.hasSubmitted = false →
      r.isPlayerTurn pid = false →
      (g.submitWord pid w).2 = some GameError.notYourTurn) := by
  refine ⟨?_, ?_, ?_⟩
  · intro h
    by_cases c1 : g.phase = PhaseSubmission
    · simp only [Game.submitWord,
        if_neg (show ¬ g.phase ≠ PhaseSubmission by simp [c1])] at h
      refine ⟨c1, ?_⟩
      split at h
      · simp at h
      · rename_i round heq
        refine ⟨round, heq, ?_⟩
        split at h
        · simp at h
        · split at h
          · simp at h
          · rename_i pl hl
            split at h
            · simp at h
            · split at h
              · simp at h
              · rename_i r2 hadd
                exact (addSubmission_ok round r2 pid pl.nickname (trimSpace w) hadd).1
    · simp [Game.submitWord, c1] at h
  · intro e he
    rcases submitWord_frame g pid w with hg | hn
    · exact hg
    · rw [he] at hn
      simp at hn
  · intro r pl c1 hr c2 hl c3 hturn
    have haddc : r.addSubmission pid pl.nickname (trimSpace w) = .error .notYourTurn := by
      unfold Round.addSubmission
      rw [if_pos (by simp [hturn])]
    simp [Game.submitWord, c1, hr, c2, hl, c3, haddc]

theorem c5_submit_word_witness :
    (gSub.phase = PhaseSubmission ∧
     ∃ r, gSub.currentRound = some r ∧ r.getCurrentPlayerID = "p1") ∧
    (gSub.submitWord "p2" "hello").2 = some GameError.notYourTurn :=
  ⟨(c5_submit_word gSub "p1" "hi").1 (by decide),
   (c5_submit_word gSub "p2" "hello").2.2 rSub
     ({ NewPlayer "p2" "bob" with role := RoleVilek }) (by decide) rfl
     (by decide) (by decide) (by decide) (by decide)⟩

theorem addVote_ok (r r2 : Round) (vid tid : String)
    (h : r.addVote vid tid = .ok r2) :
    (r.votes.any (fun v => v.voterId = vid)) = false ∧
    r2 = { r with votes := r.votes ++ [NewVote vid tid] } := by
  unfold Round.addVote at h
  by_cases hc : r.votes.any (fun v => v.voterId = vid) = true
  · rw [if_pos hc] at h
    exact absurd h (by simp)
  · rw [if_neg hc] at h
    simp only [Except.ok.injEq] at h
    exact ⟨by simpa using hc, h.symm⟩

theorem castVote_frame (g : Game) (vid tid : String) :
    (g.castVote vid tid).1 = g ∨ (g.castVote vid tid).2 = none := by
  unfold Game.castVote
  by_cases c1 : g.phase ≠ PhaseVoting
  · simp [c1]
  · rw [if_neg c1]
    cases hr : g.currentRound with
    | none => simp
    | some round =>
        by_cases c2 : vid = tid
        · simp [c2]
        · simp only [if_neg c2]
          cases hv : List.lookup vid g.players with
          | none => simp
          | some voter =>
              by_cases c3 : voter.hasVoted
              · simp [c3]
              · simp only [Bool.not_eq_true] at c3
                simp only [c3]
                by_cases c4 : (List.lookup tid g.players).isNone
                · simp [c4]
                · simp only [Bool.not_eq_true] at c4
                  simp only [c4]
                  cases hadd : round.addVote vid tid with
                  | error e => simp
                  | ok r2 => simp

theorem castVote_success_eq (g : Game) (vid tid : String)
    (hnone : (g.castVote vid tid).2 = none) :
    ∃ r r2, g.currentRound = some r ∧ r.addVote vid tid = .ok r2 ∧
      g.castVote vid tid = (({ g with
        currentRound := some r2,
        players := mapUpdate g.players vid
          (fun p => { p with hasVoted := true }) } : Game), none) := by
  by_cases c1 : g.phase = PhaseVoting
  · cases hr : g.currentRound with
    | none => simp [Game.castVote, c1, hr] at hnone
    | some r =>
        by_cases c2 : vid = tid
        · simp [Game.castVote, c1, hr, c2] at hnone
        · cases hv : List.lookup vid g.players with
          | none => simp [Game.castVote, c1, hr, c2, hv] at hnone
          | some voter =>
              by_cases c3 : voter.hasVoted
              · simp [Game.castVote, c1, hr, c2, hv, c3] at hnone
              · by_cases c4 : (List.lookup tid g.players).isNone
                · simp [Game.castVote, c1, hr, c2, hv, c3, c4] at hnone
                · cases hadd : r.addVote vid tid with
                  | error e =>
                      simp [Game.castVote, c1, hr, c2, hv, c3, c4, hadd] at hnone
                  | ok r2 =>
                      refine ⟨r, r2, rfl, hadd, ?_⟩
                      simp only [Bool.not_eq_true] at c3 c4
                      simp [Game.castVote, c1, hr, c2, hv, c3, c4, hadd]
  · simp [Game.castVote, c1] at hnone

/-- C7 amended: a successful `CastVote` appends exactly one vote by a voter
not yet in the list (so voters stay unique) and marks the voter's
`hasVoted`; every error leaves the game unchanged; and the error precedence
in VOTING phase with a round is CannotVoteSelf, then PlayerNotFound for an
unknown voter, then AlreadyVoted, and only then InvalidTargetId for an
unknown target. -/
theorem c7_cast_vote (g : Game) (vid tid : String) :
    ((g.castVote vid tid).2 = none →
      ∃ r r2, g.currentRound = some r ∧
        (g.castVote vid tid).1.currentRound = some r2 ∧
        r2.votes = r.votes ++ [NewVote vid tid] ∧
        vid ∉ r.votes.map Vote.voterId ∧
        ((r.votes.map Vote.voterId).Nodup → (r2.votes.map Vote.voterId).Nodup) ∧
        (g.castVote vid tid).1.players =
          mapUpdate g.players vid (fun p => { p with hasVoted := true })) ∧
    (∀ e, (g.castVote vid tid).2 = some e → (g.castVote vid tid).1 = g) ∧
    (∀ r, g.phase = PhaseVoting → g.currentRound = some r →
      (vid = tid → (g.castVote vid tid).2 = some GameError.cannotVoteSelf) ∧
      (vid ≠ tid → g.players.lookup vid = none →
        (g.castVote vid tid).2 = some GameError.playerNotFound) ∧
      (∀ voter, vid ≠ tid → g.players.lookup vid = some voter → voter.hasVoted = true →
        (g.castVote vid tid).2 = some GameError.alreadyVoted) ∧
      (∀ voter, vid ≠ tid → g.players.lookup vid = some voter → voter.hasVoted = false →
        g.players.lookup tid = none →
        (g.castVote vid tid).2 = some GameError.invalidTargetID)) := by
  refine ⟨?_, ?_, ?_⟩
  · intro h
    obtain ⟨r, r2, hr, hadd, heq⟩ := castVote_success_eq g vid tid h
    obtain ⟨hany, hr2⟩ := addVote_ok r r2 vid tid hadd
    have hnotmem : vid ∉ r.votes.map Vote.voterId := by
      intro hm
      obtain ⟨v, hv, hveq⟩ := List.mem_map.mp hm
      have hc : r.votes.any (fun v => v.voterId = vid) = true :=
        List.any_eq_true.mpr ⟨v, hv, by simp [hveq]⟩
      rw [hany] at hc
      exact absurd hc (by simp)
    refine ⟨r, r2, hr, by rw [heq], by rw [hr2], hnotmem, ?_, by rw [heq]⟩
    intro hnd
    rw [hr2]
    simp only [List.map_append]
    have hperm : List.Perm
        (r.votes.map Vote.voterId ++ [NewVote vid tid].map Vote.voterId)
        ((NewVote vid tid).voterId :: r.votes.map Vote.voterId) := by
      simp only [List.map_cons, List.map_nil]
      exact List.perm_append_singleton _ _
    refine hperm.nodup_iff.mpr (List.nodup_cons.mpr ⟨?_, hnd⟩)
    simpa [NewVote] using hnotmem
  · intro e he
    rcases castVote_frame g vid tid with hg | hn
    · exact hg
    · rw [he] at hn
      simp at hn
  · intro r c1 hr
    refine ⟨?_, ?_, ?_, ?_⟩
    · intro c2
      simp [Game.castVote, c1, hr, c2]
    · intro c2 hv
      simp [Game.castVote, c1, hr, c2, hv]
    · intro voter c2 hv c3
      simp [Game.castVote, c1, hr, c2, hv, c3]
    · intro voter c2 hv c3 c4
      simp [Game.castVote, c1, hr, c2, hv, c3, c4]

theorem c7_cast_vote_witness :
    (∃ r r2, gVote.currentRound = some r ∧
        (gVote.castVote "p2" "p3").1.currentRound = some r2 ∧
        r2.votes = r.votes ++ [NewVote "p2" "p3"] ∧
        "p2" ∉ r.votes.map Vote.voterId ∧
        ((r.votes.map Vote.voterId).Nodup → (r2.votes.map Vote.voterId).Nodup) ∧
        (gVote.castVote "p2" "p3").1.players =
          mapUpdate gVote.players "p2" (fun p => { p with hasVoted := true })) ∧
    (gVote.castVote "p1" "p4").2 = some GameError.alreadyVoted :=
  ⟨(c7_cast_vote gVote "p2" "p3").1 (by decide),
   ((c7_cast_vote gVote "p1" "p4").2.2 rVote (by decide) rfl).2.2.1
     ({ NewPlayer "p1" "ann" with role := RoleVilek, hasVoted := true })
     (by decide) (by decide) (by decide)⟩

theorem roleSection_spec (sg : GameStateView × Game) (pid : String) :
    (roleSection sg pid).2 = sg.2 ∧
    (roleSection sg pid).1.players = sg.1.players ∧
    (roleSection sg pid).1.results = sg.1.results ∧
    (roleSection sg pid).1.imposterId = sg.1.imposterId ∧
    (∀ ρ, (roleSection sg pid).1.role = some ρ →
      sg.1.role = some ρ ∨ ∃ p, sg.2.players.lookup pid = some p ∧ p.role = ρ) := by
  unfold roleSection
  cases hl : List.lookup pid sg.2.players with
  | none => simp [hl]
  | some player =>
      by_cases hrole : player.role ≠ ""
      · by_cases hv : player.role = RoleVilek ∧ sg.2.currentRound.isSome
        · refine ⟨by simp [hl, hrole, hv, RoleVilek], by simp [hl, hrole, hv, RoleVilek],
            by simp [hl, hrole, hv, RoleVilek], by simp [hl, hrole, hv, RoleVilek], ?_⟩
          intro ρ hρ
          simp [hl, hrole, hv, RoleVilek] at hρ
          exact Or.inr ⟨player, rfl, hv.1.trans hρ⟩
        · have hv2 : ¬(player.role = "VILEK" ∧ sg.2.currentRound.isSome = true) := by
            simpa [RoleVilek] using hv
          refine ⟨by simp [hl, hrole, RoleVilek, hv2], by simp [hl, hrole, RoleVilek, hv2],
            by simp [hl, hrole, RoleVilek, hv2], by simp [hl, hrole, RoleVilek, hv2], ?_⟩
          intro ρ hρ
          simp [hl, hrole, RoleVilek, hv2] at hρ
          exact Or.inr ⟨player, rfl, hρ⟩
      · refine ⟨by simp [hl, hrole], by simp [hl, hrole],
          by simp [hl, hrole], by simp [hl, hrole], ?_⟩
        intro ρ hρ
        simp only [hl, if_neg hrole] at hρ
        exact Or.inl hρ

/-- C4 amended: outside the RESULTS phase, `GetGameState` is a read-only
projection — it returns the game unchanged, its player list is the role-free
`PlayerInfo` view of every player, no results or imposter id are exposed,
and any role in the snapshot is the caller's own.  (In RESULTS phase it is
not read-only: it re-runs `CalculateResults`, overwriting the round's
winner — see the counterexample — and deliberately exposes the results,
imposter id and secret word.) -/
theorem c4_get_game_state (g : Game) (pid : String) (h : g.phase ≠ PhaseResults) :
    (getGameState g pid).2 = g ∧
    (getGameState g pid).1.players = g.players.map (fun e => e.2.toInfo) ∧
    (getGameState g pid).1.results = none ∧
    (getGameState g pid).1.imposterId = none ∧
    (∀ ρ, (getGameState g pid).1.role = some ρ →
      ∃ p, g.players.lookup pid = some p ∧ p.role = ρ) := by
  have hsg : ∃ st : GameStateView, getGameState g pid = roleSection (st, g) pid ∧
      st.players = g.players.map (fun e => e.2.toInfo) ∧
      st.results = none ∧ st.imposterId = none ∧ st.role = none := by
    unfold getGameState
    by_cases s1 : g.phase = PhaseSubmission
    · cases hr : g.currentRound with
      | some r =>
          exact ⟨{ phase := g.phase, players := g.getPlayerInfoList,
                   hostId := g.hostID, canStart := g.canStart,
                   submissions := some r.submissions,
                   currentPlayerId := some r.getCurrentPlayerID },
            by simp [s1, hr], by simp [Game.getPlayerInfoList], rfl, rfl, rfl⟩
      | none =>
          exact ⟨{ phase := g.phase, players := g.getPlayerInfoList,
                   hostId := g.hostID, canStart := g.canStart },
            by simp [s1, hr], by simp [Game.getPlayerInfoList], rfl, rfl, rfl⟩
    · by_cases s2 : g.phase = PhaseVoting
      · exact ⟨{ phase := g.phase, players := g.getPlayerInfoList,
                 hostId := g.hostID, canStart := g.canStart,
                 voteProgress := g.getVoteProgress },
          by simp [s1, s2, PhaseSubmission, PhaseVoting],
          by simp [Game.getPlayerInfoList], rfl, rfl, rfl⟩
      · exact ⟨{ phase := g.phase, players := g.getPlayerInfoList,
                 hostId := g.hostID, canStart := g.canStart },
          by simp [s1, s2, h], by simp [Game.getPlayerInfoList], rfl, rfl, rfl⟩
  obtain ⟨st, heq, hpl, hres, himp, hrole⟩ := hsg
  rw [heq]
  have hspec := roleSection_spec (st, g) pid
  refine ⟨hspec.1, ?_, ?_, ?_, ?_⟩
  · rw [hspec.2.1]
    exact hpl
  · rw [hspec.2.2.1]
    exact hres
  · rw [hspec.2.2.2.1]
    exact himp
  · intro ρ hρ
    rcases hspec.2.2.2.2 ρ hρ with h1 | h2
    · rw [hrole] at h1
      exact absurd h1 (by simp)
    · exact h2

theorem c4_get_game_state_witness :
    (getGameState gSub "p1").2 = gSub ∧
    (getGameState gSub "p1").1.players = gSub.players.map (fun e => e.2.toInfo) ∧
    (getGameState gSub "p1").1.results = none ∧
    (getGameState gSub "p1").1.imposterId = none ∧
    (∀ ρ, (getGameState gSub "p1").1.role = some ρ →
      ∃ p, gSub.players.lookup "p1" = some p ∧ p.role = ρ) :=
  c4_get_game_state gSub "p1" (by decide)

end Imposter
